import Mathlib

/-!
Verification of the block-graph-to-JavaScript decompiler in
`src/util/decompile-util.ts` (functions `generateJavaScriptFromBlocks`,
`findTopLevelBlocks`, `decompileBlock`, `processInput`, `escapeString`).

The embedding models the dynamically typed JavaScript values flowing through
the decompiler with the inductive type `JVal`.  Numbers are modelled as
integers (`Int`): every numeric literal exercised by the source's own test
properties is an integer.  The `Number(value)` guard on literal string
inputs is decided by an exact model of the ECMAScript StringNumericLiteral
grammar (`jsNumberParses`), and the rendered numeric text is modelled
exactly on the fragment where the parsed value is an integer of magnitude
below `2^53` (`jsSafeDecInt`), where the IEEE-754 float64 parse and
`toString` coincide with plain decimal arithmetic; float rounding and
shortest-representation formatting beyond that fragment are outside the
scope of this development.  JavaScript objects are association lists keyed
by strings, preserving insertion order exactly as JS objects and `Set`s
do.

The mutually recursive pair `decompileBlock` / `processInput` recurses through
the block graph with no bound in the source; here both take an explicit fuel
parameter, where each fuel unit corresponds to one JavaScript call frame of
either function.  A result of `none` means the computation did not complete
within the given number of frames; the source terminates on an input exactly
when some fuel suffices.
-/

/-- Model of a JavaScript (JSON-like) runtime value. -/
inductive JVal where
  | null
  | bool (b : Bool)
  | num (n : Int)
  | str (s : String)
  | arr (elems : List JVal)
  | obj (fields : List (String × JVal))
deriving Repr

mutual

/-- Structural equality on modelled values.  This coincides with JavaScript
strict equality (`===`, and `Set`/SameValueZero equality) on the primitive
values; for the reference types (`arr`, `obj`) JavaScript compares
references, which the model approximates structurally — no claim exercises
strict equality on a non-primitive value. -/
def JVal.beq : JVal → JVal → Bool
  | .null, .null => true
  | .bool a, .bool b => a == b
  | .num a, .num b => a == b
  | .str a, .str b => a == b
  | .arr a, .arr b => JVal.beqList a b
  | .obj a, .obj b => JVal.beqObj a b
  | _, _ => false

/-- Pointwise `JVal.beq` on lists (helper for the nested recursion). -/
def JVal.beqList : List JVal → List JVal → Bool
  | [], [] => true
  | a :: as, b :: bs => JVal.beq a b && JVal.beqList as bs
  | _, _ => false

/-- Pointwise `JVal.beq` on key-value lists (helper for the nested
recursion). -/
def JVal.beqObj : List (String × JVal) → List (String × JVal) → Bool
  | [], [] => true
  | (k1, v1) :: as, (k2, v2) :: bs => k1 == k2 && JVal.beq v1 v2 && JVal.beqObj as bs
  | _, _ => false

end

instance : BEq JVal := ⟨JVal.beq⟩

/-- A JavaScript object: string keys to values, in insertion order. -/
abbrev JObj := List (String × JVal)

/-- Property access `o[k]`: the first binding of the key, `none` = `undefined`. -/
def JObj.get : JObj → String → Option JVal
  | [], _ => none
  | p :: rest, k => if p.1 = k then some p.2 else JObj.get rest k

/-- Assignment `o[k] = v`: overwrite in place when the key exists (keeping its
insertion position, as JS objects do), otherwise append. -/
def JObj.set : JObj → String → JVal → JObj
  | [], k, v => [(k, v)]
  | p :: rest, k, v =>
    if p.1 = k then (k, v) :: rest else p :: JObj.set rest k v

/-- JavaScript truthiness of a value; `undefined` is handled by `Option` at
use sites.  (`NaN` and `-0` do not arise: numbers are modelled as `Int`.) -/
def jvTruthy : JVal → Bool
  | .null => false
  | .bool b => b
  | .num n => n != 0
  | .str s => s != ""
  | .arr _ => true
  | .obj _ => true

mutual

/-- Model of the JavaScript `String(v)` conversion (template-literal
interpolation, `.toString()` on the modelled fragment).  Arrays join their
elements with `","`, rendering `null` elements as empty, like
`Array.prototype.toString`.  An `obj` renders as `"[object Object]"`.
Caveat kept from JavaScript: `null.toString()` would throw in the source at
one dead corner of `processInput`; the model renders it as `"null"` —
no claim reaches that corner. -/
def jvDisplay : JVal → String
  | .null => "null"
  | .bool b => if b then "true" else "false"
  | .num n => toString n
  | .str s => s
  | .arr l => String.intercalate "," (jvDisplayList l)
  | .obj _ => "[object Object]"

/-- The elements of an array as `Array.prototype.join` renders them: `null`
becomes the empty string. -/
def jvDisplayList : List JVal → List String
  | [] => []
  | .null :: vs => "" :: jvDisplayList vs
  | v :: vs => jvDisplay v :: jvDisplayList vs

end

/-- Adding to a JavaScript `Set` of values: no-op when an equal element is
already present, else append (JS `Set`s preserve insertion order). -/
def setAdd (s : List JVal) (v : JVal) : List JVal :=
  if s.contains v then s else s ++ [v]

/-- The source's `escapeString`, a pipeline of five global single-character
replacements (`\ " \n \r \t`).  Since each replacement scans the original
text left to right and never rescans inserted text, the pipeline acts
independently on each character; the model maps this per-character action
over the string. -/
def escapeChar (c : Char) : List Char :=
  if c = '\\' then ['\\', '\\']
  else if c = '"' then ['\\', '"']
  else if c = '\n' then ['\\', 'n']
  else if c = '\r' then ['\\', 'r']
  else if c = '\t' then ['\\', 't']
  else [c]

/-- Model of `escapeString` from `decompile-util.ts`. -/
def escapeString (s : String) : String :=
  String.mk (s.data.flatMap escapeChar)

/-- Decoder for the standard JavaScript string-escape rules, used to state the
round-trip property of `escapeString`.  Decoding fails on a lone or invalid
backslash escape, on an unescaped double quote, and on a raw newline,
carriage return, or tab — exactly the characters that would break a
double-quoted string literal. -/
def decodeEsc : List Char → Option (List Char)
  | [] => some []
  | c :: rest =>
    if c = '\\' then
      match rest with
      | [] => none
      | d :: rest2 =>
        if d = '\\' then (decodeEsc rest2).map (fun l => '\\' :: l)
        else if d = '"' then (decodeEsc rest2).map (fun l => '"' :: l)
        else if d = 'n' then (decodeEsc rest2).map (fun l => '\n' :: l)
        else if d = 'r' then (decodeEsc rest2).map (fun l => '\r' :: l)
        else if d = 't' then (decodeEsc rest2).map (fun l => '\t' :: l)
        else none
    else if c = '"' ∨ c = '\n' ∨ c = '\r' ∨ c = '\t' then none
    else (decodeEsc rest).map (fun l => c :: l)

/-- The exact set of characters JavaScript treats as trimmable whitespace
(ECMAScript WhiteSpace ∪ LineTerminator): tab, LF, VT, FF, CR, space, NBSP,
Ogham space mark, the U+2000–U+200A spaces, LS, PS, narrow no-break space,
medium mathematical space, ideographic space, and the zero-width no-break
space. -/
def jsWhitespace (c : Char) : Bool :=
  c == ' ' || c == '\t' || c == '\n' || c == '\r'
    || c.toNat == 0x0B || c.toNat == 0x0C || c.toNat == 0xA0
    || c.toNat == 0x1680
    || (0x2000 ≤ c.toNat && c.toNat ≤ 0x200A)
    || c.toNat == 0x2028 || c.toNat == 0x2029
    || c.toNat == 0x202F || c.toNat == 0x205F || c.toNat == 0x3000
    || c.toNat == 0xFEFF

/-- Model of `String.prototype.trim`: strip the JavaScript whitespace set
from both ends. -/
def jsTrim (s : String) : String :=
  String.mk (((s.data.dropWhile jsWhitespace).reverse.dropWhile
    jsWhitespace).reverse)

/-- Whether the first list is a prefix of the second. -/
def charsPre (pat s : List Char) : Bool :=
  match pat, s with
  | [], _ => true
  | a :: as, b :: bs => if a = b then charsPre as bs else false
  | _ :: _, [] => false

/-- Model of `String.prototype.startsWith`. -/
def jsStartsWith (s pre : String) : Bool :=
  charsPre pre.data s.data

/-- Whether `pat` occurs as a contiguous run inside `hay`. -/
def hasRun (hay pat : List Char) : Bool :=
  match hay with
  | [] => charsPre pat []
  | _ :: tl => charsPre pat hay || hasRun tl pat

/-- Model of `String.prototype.includes` (for the non-empty patterns the
source uses). -/
def strIncludes (s pat : String) : Bool :=
  hasRun s.data pat.data

/-- Model of `s.split(' ')[0]`: the text before the first space. -/
def firstWord (s : String) : String :=
  String.mk (s.data.takeWhile (fun c => c != ' '))

/-- The nonnegative integer denoted by a list of decimal digits (the empty
list denotes `0`, as in the exponent `e` of `"1e"`-free positions where the
grammar already guarantees nonemptiness). -/
def digitsVal (ds : List Char) : Int :=
  ds.foldl (fun acc c => acc * 10 + ((c.toNat : Int) - 48)) 0

/-- Recognizer for an optional ExponentPart closing a decimal literal:
either nothing is left, or `e`/`E`, an optional sign, and at least one
digit. -/
def expPartOk : List Char → Bool
  | [] => true
  | e :: rest =>
    if e = 'e' ∨ e = 'E' then
      let rest2 :=
        match rest with
        | c :: r => if c = '+' ∨ c = '-' then r else rest
        | [] => rest
      rest2 ≠ [] && rest2.all Char.isDigit
    else false

/-- Recognizer for StrUnsignedDecimalLiteral without the `Infinity` form:
`digits [. digits?] exp?` or `. digits exp?`. -/
def mantissaOk (l : List Char) : Bool :=
  let d1 := l.takeWhile Char.isDigit
  let r1 := l.dropWhile Char.isDigit
  if d1 = [] then
    match r1 with
    | '.' :: r2 =>
      let d2 := r2.takeWhile Char.isDigit
      let r3 := r2.dropWhile Char.isDigit
      d2 ≠ [] && expPartOk r3
    | _ => false
  else
    match r1 with
    | '.' :: r2 => expPartOk (r2.dropWhile Char.isDigit)
    | _ => expPartOk r1

/-- Recognizer for StrDecimalLiteral: an optional sign followed by
`Infinity` or a decimal mantissa. -/
def strDecimalOk (l : List Char) : Bool :=
  let core :=
    match l with
    | c :: r => if c = '+' ∨ c = '-' then r else l
    | [] => l
  core = "Infinity".data || mantissaOk core

/-- Whether a character is a hexadecimal digit. -/
def hexDigit (c : Char) : Bool :=
  c.isDigit || ('a' ≤ c && c ≤ 'f') || ('A' ≤ c && c ≤ 'F')

/-- Recognizer for the unsigned non-decimal integer literals `Number`
accepts: `0x`/`0X` hex, `0o`/`0O` octal, `0b`/`0B` binary, each with at
least one digit (a sign in front of these is NaN, as in JavaScript). -/
def nonDecOk : List Char → Bool
  | '0' :: x :: rest =>
    if x = 'x' ∨ x = 'X' then rest ≠ [] && rest.all hexDigit
    else if x = 'o' ∨ x = 'O' then
      rest ≠ [] && rest.all (fun c => '0' ≤ c && c ≤ '7')
    else if x = 'b' ∨ x = 'B' then
      rest ≠ [] && rest.all (fun c => c = '0' ∨ c = '1')
    else false
  | _ => false

/-- Faithful decision of `!isNaN(Number(s))`: the ECMAScript
StringNumericLiteral grammar, checked exactly — trimmed-empty (value `0`),
a signed decimal literal (`Infinity`, `digits[.digits?][exp]`,
`.digits[exp]`), or an unsigned hex/octal/binary literal.  This is a pure
grammar decision, so it needs no float arithmetic. -/
def jsNumberParses (s : String) : Bool :=
  let t := (jsTrim s).data
  t = [] || strDecimalOk t || nonDecOk t

/-- Exact value of a decimal StringNumericLiteral on the fragment where
`Number(s)` is an integer of magnitude below `2^53`: there the IEEE-754
float64 parse is exact and `toString` prints the plain decimal digits.
Non-integer values, values at or above `2^53` (where the float parse
rounds), `Infinity`, and the non-decimal radix forms map to `none`. -/
def jsSafeDecIntCore (t : List Char) : Option Int :=
  if strDecimalOk t then
    let sc : Int × List Char :=
      match t with
      | '+' :: r => (1, r)
      | '-' :: r => (-1, r)
      | _ => (1, t)
    if sc.2 = "Infinity".data then none
    else
      let d1 := sc.2.takeWhile Char.isDigit
      let r1 := sc.2.dropWhile Char.isDigit
      let fr : List Char × List Char :=
        match r1 with
        | '.' :: r2 => (r2.takeWhile Char.isDigit, r2.dropWhile Char.isDigit)
        | _ => ([], r1)
      let expVal : Option Int :=
        match fr.2 with
        | [] => some 0
        | e :: rest =>
          if e = 'e' ∨ e = 'E' then
            match rest with
            | '+' :: ds => some (digitsVal ds)
            | '-' :: ds => some (-(digitsVal ds))
            | ds => some (digitsVal ds)
          else none
      match expVal with
      | none => none
      | some ex =>
        let m : Int := sc.1 * digitsVal (d1 ++ fr.1)
        let k : Int := ex - fr.1.length
        let v : Option Int :=
          if 0 ≤ k then some (m * (10 : Int) ^ k.toNat)
          else if m % ((10 : Int) ^ (-k).toNat) = 0 then
            some (m / (10 : Int) ^ (-k).toNat)
          else none
        match v with
        | none => none
        | some vv => if vv.natAbs < 2 ^ 53 then some vv else none
  else none

/-- The safe-integer decimal fragment of `Number(s)`, after trimming. -/
def jsSafeDecInt (s : String) : Option Int :=
  jsSafeDecIntCore (jsTrim s).data

/-- Model of `Number(s).toString()` as used by `processInput` for a numeric
literal: on the safe-integer decimal fragment it is the exact decimal
rendering; outside that fragment (floats, huge integers, exponent forms
with fractional value, `Infinity`, radix prefixes) the rendered text is
modelled as the trimmed input — a documented placeholder that no proved
statement depends on, since IEEE-754 rounding and shortest-representation
formatting are outside the scope of this embedding. -/
def jsNumberRender (s : String) : String :=
  match jsSafeDecInt s with
  | some v => toString v
  | none => jsTrim s

/-- A block record as accessed by the decompiler: opcode tag, field map,
input map, mutation metadata, and the optional successor identifier. -/
structure Block where
  opcode : String
  fields : JObj := []
  inputs : JObj := []
  mutation : JObj := []
  next : Option String := none
deriving Repr

/-- The per-actor block graph: identifier-keyed mapping of block records, in
insertion (first-seen) order, as a JavaScript object holds it. -/
abbrev Blocks := List (String × Block)

/-- Lookup `blocks[id]`; `none` = `undefined`. -/
def getBlock : Blocks → String → Option Block
  | [], _ => none
  | p :: rest, id => if p.1 = id then some p.2 else getBlock rest id

/-- The source's `' '.repeat(indentation * 4)`. -/
def indentStr (indentation : Nat) : String :=
  String.mk (List.replicate (indentation * 4) ' ')

/-- Indexing `v[i]` on a modelled value: arrays index their elements, strings
their characters (as 1-character strings); anything else gives `undefined`. -/
def jvIndex : JVal → Nat → Option JVal
  | .arr l, i => l[i]?
  | .str s, i => (s.data[i]?).map (fun c => JVal.str (String.mk [c]))
  | _, _ => none

/-- Access `block.fields?.NAME?.[0]`. -/
def fieldAt0 (b : Block) (name : String) : Option JVal :=
  (b.fields.get name).bind (fun v => jvIndex v 0)

/-- The pervasive source pattern `block.fields?.NAME?.[0] || 'dflt'`,
interpolated into a template literal. -/
def fieldOrStr (b : Block) (name dflt : String) : String :=
  match fieldAt0 b name with
  | some v => if jvTruthy v then jvDisplay v else dflt
  | none => dflt

/-- Resolve a substack input: the source pattern
`block.inputs?.KEY && block.inputs.KEY[1] && blocks[block.inputs.KEY[1]]`,
yielding the referenced identifier and block when all three are truthy. -/
def substackTarget (blocks : Blocks) (b : Block) (key : String) :
    Option (String × Block) :=
  match b.inputs.get key with
  | some v =>
    if jvTruthy v then
      match jvIndex v 1 with
      | some x =>
        if jvTruthy x then
          match getBlock blocks (jvDisplay x) with
          | some sb => some (jvDisplay x, sb)
          | none => none
        else none
      | none => none
    else none
  | none => none

/-- Resolve the successor: `block.next && blocks[block.next]`. -/
def nextTarget (blocks : Blocks) (b : Block) : Option (String × Block) :=
  match b.next with
  | some s =>
    if s ≠ "" then
      match getBlock blocks s with
      | some nb => some (s, nb)
      | none => none
    else none
  | none => none

/-- The identifier allow-list `processInput` checks a literal string against
before quoting it (`value === 'i' || value === 'j' || ...`). -/
def knownLoopVars : List String :=
  ["i", "j", "k", "len", "current", "next", "result", "separator"]

mutual

/-- Model of `decompileBlock(blocks, blockId, block, indentation)`.  The first
argument is fuel: each call of `decompileBlock`, `processInput` or one step
of the procedure-argument loop spends one unit, and `none` means the
computation did not finish within the given number of steps (the source has
no recursion bound at all, so a cyclic graph makes it recurse forever).
After the opcode switch the source appends the decompilation of the `next`
chain, except for the expression opcodes, which return directly; the
`event_whenflagclicked` case also descends into `next` inside its own case
and therefore emits the chain twice, which the model reproduces. -/
def decompileBlock : Nat → Blocks → String → Block → Nat → Option String
  | 0, _, _, _, _ => none
  | Nat.succ n, blocks, _blockId, b, indentation =>
    let ind := indentStr indentation
    let chain : Option String :=
      match nextTarget blocks b with
      | some (nid, nb) => decompileBlock n blocks nid nb indentation
      | none => some ""
    let sub : String → Option String := fun key =>
      match substackTarget blocks b key with
      | some (sid, sb) => decompileBlock n blocks sid sb (indentation + 1)
      | none => some ""
    match b.opcode with
    | "event_whenflagclicked" => do
      let inner ← chain
      let tail ← chain
      some (ind ++ "// When green flag clicked\n" ++ inner ++ tail)
    | "data_variable" => some (fieldOrStr b "VARIABLE" "my variable")
    | "data_listcontents" => some (fieldOrStr b "LIST" "my list")
    | "data_setvariableto" => do
      let v ← processInput n blocks (b.inputs.get "VALUE") indentation
      let tail ← chain
      some (ind ++ fieldOrStr b "VARIABLE" "my variable" ++ " = " ++ v ++ ";\n"
        ++ tail)
    | "data_changevariableby" => do
      let v ← processInput n blocks (b.inputs.get "VALUE") indentation
      let tail ← chain
      let vn := fieldOrStr b "VARIABLE" "my variable"
      some (ind ++ vn ++ " = " ++ vn ++ " + " ++ v ++ ";\n" ++ tail)
    | "data_addtolist" => do
      let item ← processInput n blocks (b.inputs.get "ITEM") indentation
      let tail ← chain
      some (ind ++ "list.addItem(\"" ++ fieldOrStr b "LIST" "my list" ++ "\", "
        ++ item ++ ");\n" ++ tail)
    | "data_deletealloflist" => do
      let tail ← chain
      some (ind ++ "list.deleteAllOfList(\"" ++ fieldOrStr b "LIST" "my list"
        ++ "\");\n" ++ tail)
    | "data_deleteoflist" => do
      let idx ← processInput n blocks (b.inputs.get "INDEX") indentation
      let tail ← chain
      some (ind ++ "list.deleteItem(\"" ++ fieldOrStr b "LIST" "my list"
        ++ "\", " ++ idx ++ ");\n" ++ tail)
    | "data_replaceitemoflist" => do
      let idx ← processInput n blocks (b.inputs.get "INDEX") indentation
      let nv ← processInput n blocks (b.inputs.get "ITEM") indentation
      let tail ← chain
      some (ind ++ "list.replace(\"" ++ fieldOrStr b "LIST" "my list" ++ "\", "
        ++ idx ++ ", " ++ nv ++ ");\n" ++ tail)
    | "data_itemoflist" => do
      let idx ← processInput n blocks (b.inputs.get "INDEX") indentation
      some ("list.getItem(\"" ++ fieldOrStr b "LIST" "my list" ++ "\", "
        ++ idx ++ ")")
    | "data_lengthoflist" =>
      some ("list.length(\"" ++ fieldOrStr b "LIST" "my list" ++ "\")")
    | "control_repeat" => do
      let s ← sub "SUBSTACK"
      let tail ← chain
      some (ind ++ "for (let i = 0; i < " ++ fieldOrStr b "TIMES" "10"
        ++ "; i++) \x7b\n" ++ s ++ ind ++ "\x7d\n" ++ tail)
    | "control_repeat_until" => do
      let c ← processInput n blocks (b.inputs.get "CONDITION") indentation
      let s ← sub "SUBSTACK"
      let tail ← chain
      some (ind ++ "while (" ++ c ++ ") \x7b\n" ++ s ++ ind ++ "\x7d\n" ++ tail)
    | "control_if" => do
      let c ← processInput n blocks (b.inputs.get "CONDITION") indentation
      let s ← sub "SUBSTACK"
      let tail ← chain
      some (ind ++ "if (" ++ c ++ ") \x7b\n" ++ s ++ ind ++ "\x7d\n" ++ tail)
    | "control_if_else" => do
      let c ← processInput n blocks (b.inputs.get "CONDITION") indentation
      let s1 ← sub "SUBSTACK"
      let s2 ← sub "SUBSTACK2"
      let tail ← chain
      some (ind ++ "if (" ++ c ++ ") \x7b\n" ++ s1 ++ ind ++ "\x7d else \x7b\n"
        ++ s2 ++ ind ++ "\x7d\n" ++ tail)
    | "looks_say" => do
      let tail ← chain
      some (ind ++ "looks.say(\"" ++ escapeString (fieldOrStr b "MESSAGE" "")
        ++ "\");\n" ++ tail)
    | "operator_equals" => do
      let a ← processInput n blocks (b.inputs.get "OPERAND1") indentation
      let c ← processInput n blocks (b.inputs.get "OPERAND2") indentation
      some (a ++ " == " ++ c)
    | "operator_greaterthan" | "operator_gt" => do
      let a ← processInput n blocks (b.inputs.get "OPERAND1") indentation
      let c ← processInput n blocks (b.inputs.get "OPERAND2") indentation
      some (a ++ " > " ++ c)
    | "operator_lessthan" | "operator_lt" => do
      let a ← processInput n blocks (b.inputs.get "OPERAND1") indentation
      let c ← processInput n blocks (b.inputs.get "OPERAND2") indentation
      some (a ++ " < " ++ c)
    | "operator_not" => do
      let a ← processInput n blocks (b.inputs.get "OPERAND") indentation
      some ("!(" ++ a ++ ")")
    | "operator_add" => do
      let a ← processInput n blocks (b.inputs.get "OPERAND1") indentation
      let c ← processInput n blocks (b.inputs.get "OPERAND2") indentation
      some (a ++ " + " ++ c)
    | "operator_subtract" => do
      let a ← processInput n blocks (b.inputs.get "OPERAND1") indentation
      let c ← processInput n blocks (b.inputs.get "OPERAND2") indentation
      some (a ++ " - " ++ c)
    | "operator_multiply" => do
      let a ← processInput n blocks (b.inputs.get "OPERAND1") indentation
      let c ← processInput n blocks (b.inputs.get "OPERAND2") indentation
      some (a ++ " * " ++ c)
    | "operator_divide" => do
      let a ← processInput n blocks (b.inputs.get "OPERAND1") indentation
      let c ← processInput n blocks (b.inputs.get "OPERAND2") indentation
      some (a ++ " / " ++ c)
    | "operator_join" => do
      let a ← processInput n blocks (b.inputs.get "STRING1") indentation
      let c ← processInput n blocks (b.inputs.get "STRING2") indentation
      some ("operation.join(" ++ a ++ ", " ++ c ++ ")")
    | "procedures_definition" => do
      let s ← sub "custom_block_substack"
      let tail ← chain
      let procName := firstWord (fieldOrStr b "custom_block" "customBlock")
      let params : List String :=
        match b.mutation.get "inputids" with
        | some ids =>
          if jvTruthy ids then
            match ids with
            | .arr l =>
              (List.range l.length).map (fun idx =>
                match b.mutation.get "paramnames" with
                | some pn =>
                  if jvTruthy pn then
                    match jvIndex pn idx with
                    | some pv => jvDisplay pv
                    | none => ""
                  else "param" ++ toString (idx + 1)
                | none => "param" ++ toString (idx + 1))
            | _ => []
          else []
        | none => []
      some (ind ++ "function " ++ procName ++ "("
        ++ String.intercalate ", " params ++ ") \x7b\n" ++ s ++ ind
        ++ "\x7d\n" ++ tail)
    | "procedures_call" => do
      let inputIds : List JVal :=
        match b.mutation.get "inputids" with
        | some v =>
          if jvTruthy v then
            match v with
            | .arr l => l
            | _ => []
          else []
        | none => []
      let args ← procCallArgs n blocks b.inputs inputIds indentation
      let tail ← chain
      let callProcName :=
        match b.mutation.get "proccode" with
        | some pv =>
          if jvTruthy pv then
            let w := firstWord (jvDisplay pv)
            if w ≠ "" then w else "customBlock"
          else "customBlock"
        | none => "customBlock"
      some (ind ++ callProcName ++ "(" ++ String.intercalate ", " args
        ++ ");\n" ++ tail)
    | "motion_movesteps" => do
      let tail ← chain
      some (ind ++ "motion.moveSteps(" ++ fieldOrStr b "STEPS" "10"
        ++ ");\n" ++ tail)
    | "motion_turnright" => do
      let tail ← chain
      some (ind ++ "motion.turnRight(" ++ fieldOrStr b "DEGREES" "15"
        ++ ");\n" ++ tail)
    | "motion_turnleft" => do
      let tail ← chain
      some (ind ++ "motion.turnLeft(" ++ fieldOrStr b "DEGREES" "15"
        ++ ");\n" ++ tail)
    | "motion_gotoxy" => do
      let x ← processInput n blocks (b.inputs.get "X") indentation
      let y ← processInput n blocks (b.inputs.get "Y") indentation
      let tail ← chain
      some (ind ++ "motion.goTo(" ++ x ++ ", " ++ y ++ ");\n" ++ tail)
    | "motion_changexby" => do
      let dx ← processInput n blocks (b.inputs.get "DX") indentation
      let tail ← chain
      some (ind ++ "motion.changeX(" ++ dx ++ ");\n" ++ tail)
    | "motion_changeyby" => do
      let dy ← processInput n blocks (b.inputs.get "DY") indentation
      let tail ← chain
      some (ind ++ "motion.changeY(" ++ dy ++ ");\n" ++ tail)
    | "motion_pointindirection" => do
      let d ← processInput n blocks (b.inputs.get "DIRECTION") indentation
      let tail ← chain
      some (ind ++ "motion.pointInDirection(" ++ d ++ ");\n" ++ tail)
    | "motion_glidesecstoxy" => do
      let secs ← processInput n blocks (b.inputs.get "SECONDS") indentation
      let x ← processInput n blocks (b.inputs.get "X") indentation
      let y ← processInput n blocks (b.inputs.get "Y") indentation
      let tail ← chain
      some (ind ++ "motion.glideTo(" ++ secs ++ ", " ++ x ++ ", " ++ y
        ++ ");\n" ++ tail)
    | "looks_sayforsecs" => do
      let secs ← processInput n blocks (b.inputs.get "SECONDS") indentation
      let tail ← chain
      some (ind ++ "looks.sayForSeconds(\""
        ++ escapeString (fieldOrStr b "MESSAGE" "") ++ "\", " ++ secs
        ++ ");\n" ++ tail)
    | "looks_think" => do
      let tail ← chain
      some (ind ++ "looks.think(\"" ++ escapeString (fieldOrStr b "MESSAGE" "")
        ++ "\");\n" ++ tail)
    | "looks_thinkforsecs" => do
      let secs ← processInput n blocks (b.inputs.get "SECONDS") indentation
      let tail ← chain
      some (ind ++ "looks.thinkForSeconds(\""
        ++ escapeString (fieldOrStr b "MESSAGE" "") ++ "\", " ++ secs
        ++ ");\n" ++ tail)
    | "looks_show" => do
      let tail ← chain
      some (ind ++ "looks.show();\n" ++ tail)
    | "looks_hide" => do
      let tail ← chain
      some (ind ++ "looks.hide();\n" ++ tail)
    | "looks_switchcostumeto" => do
      let tail ← chain
      some (ind ++ "looks.switchCostumeTo(\""
        ++ escapeString (fieldOrStr b "COSTUME" "") ++ "\");\n" ++ tail)
    | "looks_nextcostume" => do
      let tail ← chain
      some (ind ++ "looks.nextCostume();\n" ++ tail)
    | "looks_setsizeto" => do
      let size ← processInput n blocks (b.inputs.get "SIZE") indentation
      let tail ← chain
      some (ind ++ "looks.setSizeTo(" ++ size ++ ");\n" ++ tail)
    | "looks_changesizoby" => do
      let size ← processInput n blocks (b.inputs.get "SIZE") indentation
      let tail ← chain
      some (ind ++ "looks.changeSizeBy(" ++ size ++ ");\n" ++ tail)
    | "sound_play" => do
      let tail ← chain
      some (ind ++ "sound.playSound(\""
        ++ escapeString (fieldOrStr b "SOUND_MENU" "") ++ "\");\n" ++ tail)
    | "sound_playuntildone" => do
      let tail ← chain
      some (ind ++ "sound.playSoundUntilDone(\""
        ++ escapeString (fieldOrStr b "SOUND_MENU" "") ++ "\");\n" ++ tail)
    | "sound_stopallsounds" => do
      let tail ← chain
      some (ind ++ "sound.stopAllSounds();\n" ++ tail)
    | "sound_changevolumeby" => do
      let v ← processInput n blocks (b.inputs.get "VOLUME") indentation
      let tail ← chain
      some (ind ++ "sound.changeVolumeBy(" ++ v ++ ");\n" ++ tail)
    | "sound_setvolumeto" => do
      let v ← processInput n blocks (b.inputs.get "VOLUME") indentation
      let tail ← chain
      some (ind ++ "sound.setVolumeTo(" ++ v ++ ");\n" ++ tail)
    | "sensing_touchingobject" =>
      some ("sensing.isTouching(\""
        ++ escapeString (fieldOrStr b "TOUCHINGOBJECT" "") ++ "\")")
    | "sensing_mousedown" => some "sensing.mouseDown()"
    | "sensing_mousex" => some "sensing.mouseX()"
    | "sensing_mousey" => some "sensing.mouseY()"
    | "sensing_keyoptions" =>
      some ("sensing.keyPressed(\""
        ++ escapeString (fieldOrStr b "KEY_OPTION" "") ++ "\")")
    | "control_wait" => do
      let t ← processInput n blocks (b.inputs.get "DURATION") indentation
      let tail ← chain
      some (ind ++ "control.wait(" ++ t ++ ");\n" ++ tail)
    | "control_stop" => do
      let tail ← chain
      some (ind ++ "control.stop(\""
        ++ escapeString (fieldOrStr b "STOP_OPTION" "") ++ "\");\n" ++ tail)
    | _ => do
      let tail ← chain
      let line :=
        if strIncludes b.opcode "motion_" then
          ind ++ "// Motion block: " ++ b.opcode ++ "\n"
        else if strIncludes b.opcode "looks_" then
          ind ++ "// Looks block: " ++ b.opcode ++ "\n"
        else if strIncludes b.opcode "sound_" then
          ind ++ "// Sound block: " ++ b.opcode ++ "\n"
        else if strIncludes b.opcode "sensing_" then
          ind ++ "// Sensing block: " ++ b.opcode ++ "\n"
        else
          ind ++ "// Unsupported block: " ++ b.opcode ++ "\n"
      some (line ++ tail)

/-- Model of `processInput(blocks, input, indentation)`.  The `input` is
`block.inputs?.NAME`, with `none` standing for JavaScript `undefined`.
Mirrors the source exactly: falsy / non-array / too-short inputs and
unresolvable block references yield the literal string `"null"`; a block
reference to an expression opcode returns the decompiled text directly,
other referenced opcodes are decompiled and trimmed; a literal value that
is a numeric string becomes a bare number, a known loop-variable name stays
unquoted, any other string is escaped and quoted, and a non-string literal
is rendered with its `toString` conversion. -/
def processInput : Nat → Blocks → Option JVal → Nat → Option String
  | 0, _, _, _ => none
  | Nat.succ n, blocks, input, indentation =>
    match input with
    | none => some "null"
    | some iv =>
      if !(jvTruthy iv) then some "null"
      else
        match iv with
        | .arr l =>
          if l.length < 2 then some "null"
          else
            match (l[1]? : Option JVal) with
            | some (.str refId) =>
              (match getBlock blocks refId with
               | some rb =>
                 if jsStartsWith rb.opcode "operator_"
                     || jsStartsWith rb.opcode "data_itemoflist"
                     || jsStartsWith rb.opcode "data_lengthoflist"
                     || jsStartsWith rb.opcode "sensing_"
                     || rb.opcode == "data_variable"
                     || rb.opcode == "data_listcontents" then
                   decompileBlock n blocks refId rb indentation
                 else
                   (decompileBlock n blocks refId rb indentation).map jsTrim
               | none => some "null")
            | some (.arr inner) =>
              if inner.length ≥ 2 then
                match (inner[1]? : Option JVal) with
                | some (.str s) =>
                  if jsNumberParses s && jsTrim s != "" then
                    some (jsNumberRender s)
                  else if knownLoopVars.contains s then
                    some s
                  else
                    some ("\"" ++ escapeString s ++ "\"")
                | some v => some (jvDisplay v)
                | none => some "null"
              else some "null"
            | some _ => some "null"
            | none => some "null"
        | _ => some "null"

/-- The argument loop of the `procedures_call` case: for each declared input
identifier, when the call block carries a truthy input under that key,
resolve it with `processInput` and append the text, else skip it. -/
def procCallArgs : Nat → Blocks → JObj → List JVal → Nat → Option (List String)
  | 0, _, _, _, _ => none
  | Nat.succ _, _, _, [], _ => some []
  | Nat.succ n, blocks, inputs, idv :: rest, indentation =>
    match inputs.get (jvDisplay idv) with
    | some iv =>
      if jvTruthy iv then
        match processInput n blocks (some iv) indentation with
        | some a =>
          (procCallArgs n blocks inputs rest indentation).map (fun l => a :: l)
        | none => none
      else procCallArgs n blocks inputs rest indentation
    | none => procCallArgs n blocks inputs rest indentation

end

/-- The substack part of a control-block case: decompile the referenced body
at one deeper indentation when the reference resolves, else contribute
nothing (the surrounding construct is still emitted). -/
def substackCode (n : Nat) (blocks : Blocks) (b : Block) (key : String)
    (indentation : Nat) : Option String :=
  match substackTarget blocks b key with
  | some (sid, sb) => decompileBlock n blocks sid sb (indentation + 1)
  | none => some ""

/-- The trailing `next`-chain part appended after the opcode switch. -/
def nextChainCode (n : Nat) (blocks : Blocks) (b : Block) (indentation : Nat) :
    Option String :=
  match nextTarget blocks b with
  | some (nid, nb) => decompileBlock n blocks nid nb indentation
  | none => some ""

/-- Model of the child-marking pass of `findTopLevelBlocks`: every identifier
occurring as the second element of an array-shaped input value whose second
element is a string, and every truthy `next` value.  The source stores these
in a `Set` which is only ever queried for membership, so the model keeps the
occurrence list. -/
def childBlocksOf (blocks : Blocks) : List String :=
  blocks.flatMap (fun p =>
    (p.2.inputs.filterMap (fun q =>
      match q.2 with
      | .arr l =>
        match (l[1]? : Option JVal) with
        | some (.str s) => some s
        | _ => none
      | _ => none))
    ++ (match p.2.next with
        | some s => if s ≠ "" then [s] else []
        | none => []))

/-- Model of `findTopLevelBlocks`: identifiers never marked as children, in
block-map order, then a second pass appending every block of `event_` opcode
not already present. -/
def findTopLevelBlocks (blocks : Blocks) : List String :=
  let allBlockIds := blocks.map (fun p => p.1)
  let childBlocks := childBlocksOf blocks
  let topIds := allBlockIds.filter (fun id => !(childBlocks.contains id))
  allBlockIds.foldl (fun acc id =>
    match getBlock blocks id with
    | some b =>
      if jsStartsWith b.opcode "event_" && !(acc.contains id) then acc ++ [id]
      else acc
    | none => acc) topIds

/-- The accumulator state of the declaration-collection phase of
`generateJavaScriptFromBlocks`: the two insertion-ordered name `Set`s and the
two name-keyed initial-value objects. -/
structure DeclState where
  foundVariables : List JVal := []
  foundLists : List JVal := []
  variableInitialValues : JObj := []
  listInitialValues : JObj := []
deriving Repr

/-- One step of the explicit-variable pass: accept an entry that is an array
whose first element is truthy and not the cloud marker `☁` (compared with
strict equality), record the name and its initial value (`""` when the entry
has no second element). -/
def addVarDecl (st : DeclState) (entry : JVal) : DeclState :=
  match entry with
  | .arr l =>
    match (l[0]? : Option JVal) with
    | some v0 =>
      if jvTruthy v0 && v0 != JVal.str "☁" then
        { st with
          foundVariables := setAdd st.foundVariables v0,
          variableInitialValues :=
            st.variableInitialValues.set (jvDisplay v0)
              ((l[1]?).getD (.str "")) }
      else st
    | none => st
  | _ => st

/-- One step of the explicit-list pass: accept an array entry with truthy
first element; the stored initial sequence is `entry[1] || []`. -/
def addListDecl (st : DeclState) (entry : JVal) : DeclState :=
  match entry with
  | .arr l =>
    match (l[0]? : Option JVal) with
    | some v0 =>
      if jvTruthy v0 then
        { st with
          foundLists := setAdd st.foundLists v0,
          listInitialValues :=
            st.listInitialValues.set (jvDisplay v0)
              (match l[1]? with
               | some v1 => if jvTruthy v1 then v1 else .arr []
               | none => .arr []) }
      else st
    | none => st
  | _ => st

/-- The two accepted declaration shapes: an ordered array of entries is taken
as is, an identifier-keyed object contributes `Object.values` in insertion
order, and any non-object (or `null`, which fails the `typeof` guard) is
skipped. -/
def declEntries : JVal → List JVal
  | .arr l => l
  | .obj o => o.map (fun p => p.2)
  | _ => []

/-- The explicit-declaration phase over the raw `variables` and `lists`
values. -/
def collectExplicitDecls (varsJ lists : JVal) : DeclState :=
  let st1 := (declEntries varsJ).foldl addVarDecl {}
  (declEntries lists).foldl addListDecl st1

/-- The block-scan phase: `data_setvariableto` / `data_changevariableby`
blocks contribute their target variable (cloud-marker names excluded by
strict equality) with default `""` only when the name has no recorded value
yet; every other `data_`-prefixed opcode with a truthy `LIST` field
contributes its list with default `[]` under the same no-overwrite rule. -/
def scanBlockDecls (st : DeclState) (b : Block) : DeclState :=
  if b.opcode == "data_setvariableto" || b.opcode == "data_changevariableby" then
    match fieldAt0 b "VARIABLE" with
    | some v =>
      if jvTruthy v && v != JVal.str "☁" then
        { st with
          foundVariables := setAdd st.foundVariables v,
          variableInitialValues :=
            if (st.variableInitialValues.get (jvDisplay v)).isSome then
              st.variableInitialValues
            else st.variableInitialValues.set (jvDisplay v) (.str "") }
      else st
    | none => st
  else if jsStartsWith b.opcode "data_" then
    match fieldAt0 b "LIST" with
    | some v =>
      if jvTruthy v then
        { st with
          foundLists := setAdd st.foundLists v,
          listInitialValues :=
            if (st.listInitialValues.get (jvDisplay v)).isSome then
              st.listInitialValues
            else st.listInitialValues.set (jvDisplay v) (.arr []) }
      else st
    | none => st
  else st

/-- The eight hardcoded fallback assignments the source performs after both
passes (`variableInitialValues['len'] = 0; ... ['next'] = "";`), in source
order.  Note these are plain assignments: they overwrite whatever the
earlier passes recorded under these names. -/
def fallbackVarDefaults : List (String × JVal) :=
  [("len", .num 0), ("i", .num 1), ("j", .num 1), ("k", .num 1),
   ("result", .str ""), ("separator", .str ""), ("current", .str ""),
   ("next", .str "")]

/-- Apply the eight fallback assignments. -/
def applyFallbackDefaults (st : DeclState) : DeclState :=
  { st with
    variableInitialValues :=
      fallbackVarDefaults.foldl (fun o p => o.set p.1 p.2)
        st.variableInitialValues }

/-- The whole declaration-collection phase of `generateJavaScriptFromBlocks`:
explicit declarations, then the block scan, then the fallback assignments. -/
def collectDecls (blocks : Blocks) (varsJ lists : JVal) : DeclState :=
  applyFallbackDefaults
    ((blocks.map (fun p => p.2)).foldl scanBlockDecls
      (collectExplicitDecls varsJ lists))

/-- One emitted variable declaration line: a string initial value is escaped
and quoted, any other value is interpolated with its string conversion. -/
def varDeclLine (variableInitialValues : JObj) (varName : JVal) : String :=
  let valueStr :=
    match variableInitialValues.get (jvDisplay varName) with
    | some (.str s) => "\"" ++ escapeString s ++ "\""
    | some v => jvDisplay v
    | none => "undefined"
  "let " ++ jvDisplay varName ++ " = " ++ valueStr ++ ";\n"

/-- The variable-declaration preamble: one line per collected name, in
first-seen order, followed by a blank line when any variable exists. -/
def varDeclsCode (st : DeclState) : String :=
  if st.foundVariables.length > 0 then
    String.join (st.foundVariables.map (varDeclLine st.variableInitialValues))
      ++ "\n"
  else ""

/-- Rendering of one stored initial-sequence item inside the emitted array
literal: strings are escaped and quoted; other items are rendered by
`Array.prototype.join`, which renders `null` as empty. -/
def listItemStr : JVal → String
  | .str s => "\"" ++ escapeString s ++ "\""
  | .null => ""
  | v => jvDisplay v

/-- One emitted list initialization line: the reserved name `numbers`
(compared with strict equality) always receives the built-in seed
`[1, 2, ..., 10]`; otherwise a stored nonempty array initial sequence gives
`list.newList` with its items, and everything else gives `list.createList`.
(A truthy non-array stored value would make the source throw on `.map`; no
such value can be stored from array-shaped JSON input, and the model routes
that dead corner to `createList`.) -/
def listDeclLine (listInitialValues : JObj) (listName : JVal) : String :=
  if listName == JVal.str "numbers" then
    "list.newList(\"numbers\", [1, 2, 3, 4, 5, 6, 7, 8, 9, 10], false);\n"
  else
    match listInitialValues.get (jvDisplay listName) with
    | some (.arr items) =>
      if items.length > 0 then
        "list.newList(\"" ++ jvDisplay listName ++ "\", ["
          ++ String.intercalate ", " (items.map listItemStr) ++ "], false);\n"
      else "list.createList(\"" ++ jvDisplay listName ++ "\");\n"
    | _ => "list.createList(\"" ++ jvDisplay listName ++ "\");\n"

/-- The list-initialization preamble. -/
def listDeclsCode (st : DeclState) : String :=
  if st.foundLists.length > 0 then
    String.join (st.foundLists.map (listDeclLine st.listInitialValues)) ++ "\n"
  else ""

/-- Model of `generateJavaScriptFromBlocks(blocks, variables, lists)`: the
header comment, the declaration preamble, then the decompiled chain of every
top-level block (or a marker comment when there are none).  The fuel bounds
each per-entry `decompileBlock` tree as described there. -/
def generateJavaScriptFromBlocks (fuel : Nat) (blocks : Blocks)
    (varsJ lists : JVal) : Option String := do
  let st := collectDecls blocks varsJ lists
  let decls := "// Decompiled from Scratch project\n\n" ++ varDeclsCode st
    ++ listDeclsCode st
  let topLevelBlocks := findTopLevelBlocks blocks
  if topLevelBlocks.length > 0 then
    let body ← topLevelBlocks.foldlM (fun acc id =>
      match getBlock blocks id with
      | some b => (decompileBlock fuel blocks id b 0).map
          (fun c => acc ++ c ++ "\n")
      | none => none) ""
    some (decls ++ "// Main code\n" ++ body)
  else
    some (decls ++ "// No blocks found\n")

section EscapeProofs

lemma escapeChar_no_raw (c : Char) :
    '\n' ∉ escapeChar c ∧ '\r' ∉ escapeChar c ∧ '\t' ∉ escapeChar c := by
  unfold escapeChar
  split_ifs with a b c' d e
  · simp
  · simp
  · simp
  · simp
  · simp
  · refine ⟨?_, ?_, ?_⟩ <;> simp only [List.mem_singleton]
    · exact fun h => c' h.symm
    · exact fun h => d h.symm
    · exact fun h => e h.symm

lemma decodeEsc_cons (c : Char) (rest : List Char) :
    decodeEsc (c :: rest) =
      if c = '\\' then
        match rest with
        | [] => none
        | d :: rest2 =>
          if d = '\\' then (decodeEsc rest2).map (fun l => '\\' :: l)
          else if d = '"' then (decodeEsc rest2).map (fun l => '"' :: l)
          else if d = 'n' then (decodeEsc rest2).map (fun l => '\n' :: l)
          else if d = 'r' then (decodeEsc rest2).map (fun l => '\r' :: l)
          else if d = 't' then (decodeEsc rest2).map (fun l => '\t' :: l)
          else none
      else if c = '"' ∨ c = '\n' ∨ c = '\r' ∨ c = '\t' then none
      else (decodeEsc rest).map (fun l => c :: l) := by
  rw [decodeEsc.eq_def]

lemma decodeEsc_flatMap (l : List Char) :
    decodeEsc (l.flatMap escapeChar) = some l := by
  induction l with
  | nil => rfl
  | cons c cs ih =>
    rw [List.flatMap_cons]
    by_cases h1 : c = '\\'
    · subst h1
      have e : escapeChar '\\' = ['\\', '\\'] := rfl
      rw [e, List.cons_append, List.cons_append, List.nil_append]
      have e2 : ∀ r, decodeEsc ('\\' :: '\\' :: r)
          = (decodeEsc r).map (fun x => '\\' :: x) := fun _ => rfl
      rw [e2, ih]
      rfl
    by_cases h2 : c = '"'
    · subst h2
      have e : escapeChar '"' = ['\\', '"'] := rfl
      rw [e, List.cons_append, List.cons_append, List.nil_append]
      have e2 : ∀ r, decodeEsc ('\\' :: '"' :: r)
          = (decodeEsc r).map (fun x => '"' :: x) := fun _ => rfl
      rw [e2, ih]
      rfl
    by_cases h3 : c = '\n'
    · subst h3
      have e : escapeChar '\n' = ['\\', 'n'] := rfl
      rw [e, List.cons_append, List.cons_append, List.nil_append]
      have e2 : ∀ r, decodeEsc ('\\' :: 'n' :: r)
          = (decodeEsc r).map (fun x => '\n' :: x) := fun _ => rfl
      rw [e2, ih]
      rfl
    by_cases h4 : c = '\r'
    · subst h4
      have e : escapeChar '\r' = ['\\', 'r'] := rfl
      rw [e, List.cons_append, List.cons_append, List.nil_append]
      have e2 : ∀ r, decodeEsc ('\\' :: 'r' :: r)
          = (decodeEsc r).map (fun x => '\r' :: x) := fun _ => rfl
      rw [e2, ih]
      rfl
    by_cases h5 : c = '\t'
    · subst h5
      have e : escapeChar '\t' = ['\\', 't'] := rfl
      rw [e, List.cons_append, List.cons_append, List.nil_append]
      have e2 : ∀ r, decodeEsc ('\\' :: 't' :: r)
          = (decodeEsc r).map (fun x => '\t' :: x) := fun _ => rfl
      rw [e2, ih]
      rfl
    · have e : escapeChar c = [c] := by
        unfold escapeChar
        rw [if_neg h1, if_neg h2, if_neg h3, if_neg h4, if_neg h5]
      rw [e, List.cons_append, List.nil_append, decodeEsc_cons, if_neg h1,
        if_neg (by tauto : ¬(c = '"' ∨ c = '\n' ∨ c = '\r' ∨ c = '\t')), ih]
      rfl

end EscapeProofs

/-- Claim C10: decoding the output of `escapeString` under the standard
escape rules recovers the input exactly, and the output contains no raw
newline, carriage return, or tab (and, because the decoder rejects a bare
`"` and a dangling backslash, every double quote in the output is escaped) —
so wrapping the output in double quotes forms a well-formed string literal
denoting the input. -/
theorem c10_escape_roundtrip (s : String) :
    decodeEsc (escapeString s).data = some s.data
    ∧ '\n' ∉ (escapeString s).data
    ∧ '\r' ∉ (escapeString s).data
    ∧ '\t' ∉ (escapeString s).data := by
  refine ⟨decodeEsc_flatMap s.data, ?_, ?_, ?_⟩ <;>
  · simp only [escapeString, List.mem_flatMap, not_exists]
    intro c _
    have h := escapeChar_no_raw c
    tauto

/-- Two statement blocks whose `next` fields form a cycle: A → B → A. -/
def blkA : Block := { opcode := "looks_show", next := some "B" }

/-- The second block of the cycle. -/
def blkB : Block := { opcode := "looks_hide", next := some "A" }

/-- The cyclic block graph of the claim. -/
def cyclicBlocks : Blocks := [("A", blkA), ("B", blkB)]

lemma c1_stepA (n : Nat) :
    decompileBlock (n + 1) cyclicBlocks "A" blkA 0
      = Option.bind (decompileBlock n cyclicBlocks "B" blkB 0)
          (fun tail => some (indentStr 0 ++ "looks.show();\n" ++ tail)) := rfl

lemma c1_stepB (n : Nat) :
    decompileBlock (n + 1) cyclicBlocks "B" blkB 0
      = Option.bind (decompileBlock n cyclicBlocks "A" blkA 0)
          (fun tail => some (indentStr 0 ++ "looks.hide();\n" ++ tail)) := rfl

/-- Claim C1: on the cyclic graph A → B → A, `decompileBlock` never completes
within any number of call frames — the source, which has no step bound, no
visited set, and no `StructuralOverflow` (or any other) reporting mechanism
anywhere, recurses on the `next` chain without bound instead of terminating
with a reported condition.  (In the runtime this is a stack-overflow crash
that propagates out of `generateJavaScriptFromBlocks`, and the per-actor
loop in `createjvavscratchProject` has no try/catch around it, so the other
actors are not generated either.) -/
theorem c1_cyclic_next_chain_never_terminates :
    ∀ n, decompileBlock n cyclicBlocks "A" blkA 0 = none
      ∧ decompileBlock n cyclicBlocks "B" blkB 0 = none := by
  intro n
  induction n with
  | zero => exact ⟨rfl, rfl⟩
  | succ n ih =>
    refine ⟨?_, ?_⟩
    · rw [c1_stepA, ih.2]
      rfl
    · rw [c1_stepB, ih.1]
      rfl

/-- Claim C5: every binary arithmetic or comparison opcode (including the
`operator_gt` / `operator_lt` aliases) emits exactly the text of its first
operand, a space, its operator token, a space, and the text of its second
operand, where the operand texts are whatever `processInput` produces for
the `OPERAND1` / `OPERAND2` inputs; the case returns directly, so no `next`
chain or indentation is appended. -/
theorem c5_binary_operator_emission (blocks : Blocks) (id : String) (b : Block)
    (indentation n : Nat) (tok l r : String)
    (hop : (b.opcode, tok) ∈ [("operator_equals", "=="),
      ("operator_greaterthan", ">"), ("operator_gt", ">"),
      ("operator_lessthan", "<"), ("operator_lt", "<"),
      ("operator_add", "+"), ("operator_subtract", "-"),
      ("operator_multiply", "*"), ("operator_divide", "/")])
    (hl : processInput n blocks (b.inputs.get "OPERAND1") indentation = some l)
    (hr : processInput n blocks (b.inputs.get "OPERAND2") indentation = some r) :
    decompileBlock (n + 1) blocks id b indentation
      = some (l ++ (" " ++ tok ++ " ") ++ r) := by
  obtain ⟨op, fl, inp, mutn, nx⟩ := b
  simp only [List.mem_cons, List.not_mem_nil, or_false, Prod.mk.injEq] at hop
  dsimp only at hl hr
  rcases hop with hq | hq | hq | hq | hq | hq | hq | hq | hq <;>
    obtain ⟨rfl, rfl⟩ := hq
  · rw [show decompileBlock (n + 1) blocks id
          ⟨"operator_equals", fl, inp, mutn, nx⟩ indentation
        = Option.bind (processInput n blocks (JObj.get inp "OPERAND1") indentation)
            (fun a => Option.bind
              (processInput n blocks (JObj.get inp "OPERAND2") indentation)
              (fun c => some (a ++ " == " ++ c))) from rfl, hl, hr]
    rfl
  · rw [show decompileBlock (n + 1) blocks id
          ⟨"operator_greaterthan", fl, inp, mutn, nx⟩ indentation
        = Option.bind (processInput n blocks (JObj.get inp "OPERAND1") indentation)
            (fun a => Option.bind
              (processInput n blocks (JObj.get inp "OPERAND2") indentation)
              (fun c => some (a ++ " > " ++ c))) from rfl, hl, hr]
    rfl
  · rw [show decompileBlock (n + 1) blocks id
          ⟨"operator_gt", fl, inp, mutn, nx⟩ indentation
        = Option.bind (processInput n blocks (JObj.get inp "OPERAND1") indentation)
            (fun a => Option.bind
              (processInput n blocks (JObj.get inp "OPERAND2") indentation)
              (fun c => some (a ++ " > " ++ c))) from rfl, hl, hr]
    rfl
  · rw [show decompileBlock (n + 1) blocks id
          ⟨"operator_lessthan", fl, inp, mutn, nx⟩ indentation
        = Option.bind (processInput n blocks (JObj.get inp "OPERAND1") indentation)
            (fun a => Option.bind
              (processInput n blocks (JObj.get inp "OPERAND2") indentation)
              (fun c => some (a ++ " < " ++ c))) from rfl, hl, hr]
    rfl
  · rw [show decompileBlock (n + 1) blocks id
          ⟨"operator_lt", fl, inp, mutn, nx⟩ indentation
        = Option.bind (processInput n blocks (JObj.get inp "OPERAND1") indentation)
            (fun a => Option.bind
              (processInput n blocks (JObj.get inp "OPERAND2") indentation)
              (fun c => some (a ++ " < " ++ c))) from rfl, hl, hr]
    rfl
  · rw [show decompileBlock (n + 1) blocks id
          ⟨"operator_add", fl, inp, mutn, nx⟩ indentation
        = Option.bind (processInput n blocks (JObj.get inp "OPERAND1") indentation)
            (fun a => Option.bind
              (processInput n blocks (JObj.get inp "OPERAND2") indentation)
              (fun c => some (a ++ " + " ++ c))) from rfl, hl, hr]
    rfl
  · rw [show decompileBlock (n + 1) blocks id
          ⟨"operator_subtract", fl, inp, mutn, nx⟩ indentation
        = Option.bind (processInput n blocks (JObj.get inp "OPERAND1") indentation)
            (fun a => Option.bind
              (processInput n blocks (JObj.get inp "OPERAND2") indentation)
              (fun c => some (a ++ " - " ++ c))) from rfl, hl, hr]
    rfl
  · rw [show decompileBlock (n + 1) blocks id
          ⟨"operator_multiply", fl, inp, mutn, nx⟩ indentation
        = Option.bind (processInput n blocks (JObj.get inp "OPERAND1") indentation)
            (fun a => Option.bind
              (processInput n blocks (JObj.get inp "OPERAND2") indentation)
              (fun c => some (a ++ " * " ++ c))) from rfl, hl, hr]
    rfl
  · rw [show decompileBlock (n + 1) blocks id
          ⟨"operator_divide", fl, inp, mutn, nx⟩ indentation
        = Option.bind (processInput n blocks (JObj.get inp "OPERAND1") indentation)
            (fun a => Option.bind
              (processInput n blocks (JObj.get inp "OPERAND2") indentation)
              (fun c => some (a ++ " / " ++ c))) from rfl, hl, hr]
    rfl

/-- Witness for C5 at a concrete block: an `operator_add` block whose operand
inputs are the literals `1` and `2` emits `1 + 2`. -/
theorem c5_binary_operator_emission_witness :
    decompileBlock 2 [] "x"
      { opcode := "operator_add",
        inputs := [("OPERAND1", .arr [.num 1, .arr [.num 4, .str "1"]]),
          ("OPERAND2", .arr [.num 1, .arr [.num 4, .str "2"]])] } 0
      = some ("1" ++ (" " ++ "+" ++ " ") ++ "2") :=
  c5_binary_operator_emission [] "x"
    { opcode := "operator_add",
      inputs := [("OPERAND1", .arr [.num 1, .arr [.num 4, .str "1"]]),
        ("OPERAND2", .arr [.num 1, .arr [.num 4, .str "2"]])] }
    0 1 "+" "1" "2" (by simp) rfl rfl

/-- A `control_if_else` block with a condition but no alternate body: its
inputs carry no `SUBSTACK2` reference at all. -/
def c7Block : Block :=
  { opcode := "control_if_else",
    inputs := [("CONDITION", .arr [.num 2, .arr [.num 4, .str "1"]])] }

/-- Counterexample to claim C7 as stated: for this branching block no
alternate body is present, yet the emitted code still contains a complete
`else` block (with an empty body) — the else block is not omitted. -/
theorem c7_counterexample :
    decompileBlock 2 [] "x" c7Block 0
      = some "if (1) \x7b\n\x7d else \x7b\n\x7d\n"
    ∧ strIncludes "if (1) \x7b\n\x7d else \x7b\n\x7d\n" "else" = true :=
  ⟨rfl, rfl⟩

/-- Claim C7 as amended: whether an else block is emitted is decided by the
opcode alone.  A `control_if` block emits `if (cond) { body }` with no else
part; a `control_if_else` block always emits the full `if/else` pair, with
an empty else body when the `SUBSTACK2` reference is absent or unresolved. -/
theorem c7_amended (blocks : Blocks) (id : String) (b1 b2 : Block)
    (ind n : Nat) (c1 s1 nx1 c2 t1 t2 nx2 : String)
    (h1 : b1.opcode = "control_if") (h2 : b2.opcode = "control_if_else")
    (hc1 : processInput n blocks (b1.inputs.get "CONDITION") ind = some c1)
    (hs1 : substackCode n blocks b1 "SUBSTACK" ind = some s1)
    (hn1 : nextChainCode n blocks b1 ind = some nx1)
    (hc2 : processInput n blocks (b2.inputs.get "CONDITION") ind = some c2)
    (ht1 : substackCode n blocks b2 "SUBSTACK" ind = some t1)
    (ht2 : substackCode n blocks b2 "SUBSTACK2" ind = some t2)
    (hn2 : nextChainCode n blocks b2 ind = some nx2) :
    decompileBlock (n + 1) blocks id b1 ind
      = some (indentStr ind ++ "if (" ++ c1 ++ ") \x7b\n" ++ s1
          ++ indentStr ind ++ "\x7d\n" ++ nx1)
    ∧ decompileBlock (n + 1) blocks id b2 ind
      = some (indentStr ind ++ "if (" ++ c2 ++ ") \x7b\n" ++ t1
          ++ indentStr ind ++ "\x7d else \x7b\n" ++ t2
          ++ indentStr ind ++ "\x7d\n" ++ nx2) := by
  constructor
  · obtain ⟨op, fl, inp, mutn, nx⟩ := b1
    dsimp only at h1 hc1 hs1 hn1
    subst h1
    rw [show decompileBlock (n + 1) blocks id
          ⟨"control_if", fl, inp, mutn, nx⟩ ind
        = Option.bind (processInput n blocks (JObj.get inp "CONDITION") ind)
            (fun c => Option.bind
              (substackCode n blocks ⟨"control_if", fl, inp, mutn, nx⟩
                "SUBSTACK" ind)
              (fun s => Option.bind
                (nextChainCode n blocks ⟨"control_if", fl, inp, mutn, nx⟩ ind)
                (fun tail => some (indentStr ind ++ "if (" ++ c ++ ") \x7b\n"
                  ++ s ++ indentStr ind ++ "\x7d\n" ++ tail)))) from rfl,
      hc1, hs1, hn1]
    rfl
  · obtain ⟨op, fl, inp, mutn, nx⟩ := b2
    dsimp only at h2 hc2 ht1 ht2 hn2
    subst h2
    rw [show decompileBlock (n + 1) blocks id
          ⟨"control_if_else", fl, inp, mutn, nx⟩ ind
        = Option.bind (processInput n blocks (JObj.get inp "CONDITION") ind)
            (fun c => Option.bind
              (substackCode n blocks ⟨"control_if_else", fl, inp, mutn, nx⟩
                "SUBSTACK" ind)
              (fun sa => Option.bind
                (substackCode n blocks ⟨"control_if_else", fl, inp, mutn, nx⟩
                  "SUBSTACK2" ind)
                (fun sb => Option.bind
                  (nextChainCode n blocks
                    ⟨"control_if_else", fl, inp, mutn, nx⟩ ind)
                  (fun tail => some (indentStr ind ++ "if (" ++ c
                    ++ ") \x7b\n" ++ sa ++ indentStr ind ++ "\x7d else \x7b\n"
                    ++ sb ++ indentStr ind ++ "\x7d\n" ++ tail)))))
        from rfl, hc2, ht1, ht2, hn2]
    rfl

/-- Witness for C7 as amended, at concrete blocks with empty bodies and no
successors. -/
theorem c7_amended_witness :
    decompileBlock 2 [] "x"
      { opcode := "control_if",
        inputs := [("CONDITION", .arr [.num 2, .arr [.num 4, .str "1"]])] } 0
      = some (indentStr 0 ++ "if (" ++ "1" ++ ") \x7b\n" ++ ""
          ++ indentStr 0 ++ "\x7d\n" ++ "")
    ∧ decompileBlock 2 [] "x" c7Block 0
      = some (indentStr 0 ++ "if (" ++ "1" ++ ") \x7b\n" ++ ""
          ++ indentStr 0 ++ "\x7d else \x7b\n" ++ ""
          ++ indentStr 0 ++ "\x7d\n" ++ "") :=
  c7_amended [] "x"
    { opcode := "control_if",
      inputs := [("CONDITION", .arr [.num 2, .arr [.num 4, .str "1"]])] }
    c7Block 0 1 "1" "" "" "1" "" "" ""
    rfl rfl rfl rfl rfl rfl rfl rfl rfl

/-- Whether a modelled value is a JavaScript array (`Array.isArray`). -/
def isArrVal : JVal → Bool
  | .arr _ => true
  | _ => false

/-- Claim C6: for every malformed expression input — absent, not an array, an
array shorter than two elements, or a block reference whose identifier does
not resolve in the graph — `processInput` returns the literal text `"null"`
immediately (for any positive frame budget), never an error. -/
theorem c6_malformed_input_yields_null (blocks : Blocks) (input : Option JVal)
    (indentation n : Nat)
    (h : input = none
      ∨ (∃ v, input = some v ∧ isArrVal v = false)
      ∨ (∃ l, input = some (.arr l) ∧ l.length < 2)
      ∨ (∃ t rid rest, input = some (.arr (t :: .str rid :: rest))
          ∧ getBlock blocks rid = none)) :
    processInput (n + 1) blocks input indentation = some "null" := by
  rcases h with rfl | ⟨v, rfl, hv⟩ | ⟨l, rfl, hl⟩ | ⟨t, rid, rest, rfl, hg⟩
  · rfl
  · cases v with
    | arr l => simp [isArrVal] at hv
    | null => rfl
    | bool b =>
      exact (show processInput (n + 1) blocks (some (.bool b)) indentation
        = if !(jvTruthy (.bool b)) then some "null" else some "null"
        from rfl).trans (ite_self _)
    | num m =>
      exact (show processInput (n + 1) blocks (some (.num m)) indentation
        = if !(jvTruthy (.num m)) then some "null" else some "null"
        from rfl).trans (ite_self _)
    | str s =>
      exact (show processInput (n + 1) blocks (some (.str s)) indentation
        = if !(jvTruthy (.str s)) then some "null" else some "null"
        from rfl).trans (ite_self _)
    | obj o =>
      exact (show processInput (n + 1) blocks (some (.obj o)) indentation
        = if !(jvTruthy (.obj o)) then some "null" else some "null"
        from rfl).trans (ite_self _)
  · rcases l with _ | ⟨a, _ | ⟨b, r⟩⟩
    · rfl
    · rfl
    · simp at hl
      omega
  · simp [processInput, hg]

/-- Witness for C6: the absent input, a non-array input, a short array, and a
dangling block reference each yield `"null"` at a concrete instance. -/
theorem c6_malformed_input_yields_null_witness :
    processInput 1 [] none 0 = some "null"
    ∧ processInput 1 [] (some (.str "x")) 0 = some "null"
    ∧ processInput 1 [] (some (.arr [.num 1])) 0 = some "null"
    ∧ processInput 1 [] (some (.arr [.num 1, .str "ghost"])) 0 = some "null" :=
  ⟨c6_malformed_input_yields_null [] none 0 0 (Or.inl rfl),
   c6_malformed_input_yields_null [] (some (.str "x")) 0 0
     (Or.inr (Or.inl ⟨.str "x", rfl, rfl⟩)),
   c6_malformed_input_yields_null [] (some (.arr [.num 1])) 0 0
     (Or.inr (Or.inr (Or.inl ⟨[.num 1], rfl, by simp⟩))),
   c6_malformed_input_yields_null [] (some (.arr [.num 1, .str "ghost"])) 0 0
     (Or.inr (Or.inr (Or.inr ⟨.num 1, "ghost", [], rfl, rfl⟩)))⟩

/-- Claim C8: a list named by the reserved seed name `numbers` is always
initialized with exactly the ten numeric literals 1..10 in ascending order,
and any other list with no stored initial values (no entry, or an empty
stored sequence) is created empty via `list.createList`. -/
theorem c8_numbers_seed_and_empty_lists (vals : JObj) (name : String)
    (h : name ≠ "numbers")
    (hempty : vals.get name = none ∨ vals.get name = some (.arr [])) :
    listDeclLine vals (.str "numbers")
      = "list.newList(\"numbers\", [1, 2, 3, 4, 5, 6, 7, 8, 9, 10], false);\n"
    ∧ listDeclLine vals (.str name)
      = "list.createList(\"" ++ name ++ "\");\n" := by
  constructor
  · rfl
  · have hb : (JVal.str name == JVal.str "numbers") = false := by
      have : JVal.beq (.str name) (.str "numbers") = (name == "numbers") := rfl
      simp only [BEq.beq] at *
      rw [this]
      simpa using h
    rcases hempty with he | he <;>
      simp [listDeclLine, hb, he, jvDisplay]

/-- Witness for C8 at a concrete declaration map: the seed line for `numbers`
and an empty `createList` for a list `foo` with an empty stored sequence. -/
theorem c8_numbers_seed_and_empty_lists_witness :
    listDeclLine [("foo", .arr [])] (.str "numbers")
      = "list.newList(\"numbers\", [1, 2, 3, 4, 5, 6, 7, 8, 9, 10], false);\n"
    ∧ listDeclLine [("foo", .arr [])] (.str "foo")
      = "list.createList(\"" ++ "foo" ++ "\");\n" :=
  c8_numbers_seed_and_empty_lists [("foo", .arr [])] "foo" (by decide)
    (Or.inr rfl)

/-- Counterexample to claim C3 as stated: the variable named `☁ score` begins
with the reserved cloud marker, yet its declaration is emitted — the
source's check `variable[0] !== '☁'` compares the whole name against the
bare marker instead of testing a prefix, so only a name that is exactly the
marker is excluded. -/
theorem c3_counterexample :
    generateJavaScriptFromBlocks 1 [] (.arr [.arr [.str "☁ score", .num 0]])
      (.arr [])
      = some ("// Decompiled from Scratch project\n\nlet ☁ score = 0;\n\n"
          ++ "// No blocks found\n")
    ∧ jsStartsWith "☁ score" "☁" = true := ⟨rfl, rfl⟩

/-- Claim C3 as amended: in both accepted declaration shapes, a variable is
excluded from the collected declarations exactly when its name is the
one-character cloud-marker string itself; any other nonempty name —
including names merely beginning with the marker — is declared. -/
theorem c3_amended (nm : String) (v : JVal) (key : String) (hne : nm ≠ "") :
    ((collectExplicitDecls (.arr [.arr [.str nm, v]]) (.arr [])).foundVariables
      = if nm = "☁" then [] else [.str nm])
    ∧ ((collectExplicitDecls (.obj [(key, .arr [.str nm, v])])
        (.arr [])).foundVariables
      = if nm = "☁" then [] else [.str nm]) := by
  constructor <;>
  · by_cases hm : nm = "☁"
    · subst hm
      rfl
    · rw [if_neg hm]
      simp [collectExplicitDecls, declEntries, addVarDecl, setAdd, jvTruthy,
        hne, hm, bne, BEq.beq, JVal.beq]

/-- Witness for C3 as amended: the cloud-prefixed name `☁ x` is collected in
both shapes, the bare-marker name is excluded. -/
theorem c3_amended_witness :
    ((collectExplicitDecls (.arr [.arr [.str "☁ x", .num 0]])
        (.arr [])).foundVariables = [.str "☁ x"])
    ∧ ((collectExplicitDecls (.obj [("id0", .arr [.str "☁ x", .num 0])])
        (.arr [])).foundVariables = [.str "☁ x"])
    ∧ ((collectExplicitDecls (.arr [.arr [.str "☁", .num 0]])
        (.arr [])).foundVariables = []) := by
  have h1 := c3_amended "☁ x" (.num 0) "id0" (by decide)
  have h2 := c3_amended "☁" (.num 0) "id0" (by decide)
  refine ⟨?_, ?_, ?_⟩
  · simpa using h1.1
  · simpa using h1.2
  · simpa using h2.1

lemma jobj_get_set_self (o : JObj) (k : String) (v : JVal) :
    JObj.get (JObj.set o k v) k = some v := by
  induction o with
  | nil => simp [JObj.set, JObj.get]
  | cons p rest ih =>
    by_cases h : p.1 = k <;> simp [JObj.set, JObj.get, h, ih]

lemma jobj_get_set_ne (o : JObj) (k k' : String) (v : JVal) (h : k' ≠ k) :
    JObj.get (JObj.set o k v) k' = JObj.get o k' := by
  induction o with
  | nil => simp [JObj.set, JObj.get, Ne.symm h]
  | cons p rest ih =>
    by_cases hp : p.1 = k
    · simp [JObj.set, JObj.get, hp, Ne.symm h]
    · simp [JObj.set, JObj.get, hp, ih]

lemma scan_step_preserves_var (st : DeclState) (b : Block) (name : String)
    (v : JVal) (h : st.variableInitialValues.get name = some v) :
    (scanBlockDecls st b).variableInitialValues.get name = some v := by
  unfold scanBlockDecls
  split
  · split
    · split
      · rename_i val heq htr
        by_cases hk : jvDisplay val = name
        · simp only [hk]
          simp [h]
        · by_cases hs : (st.variableInitialValues.get (jvDisplay val)).isSome
          · simp [hs, h]
          · simp [hs, jobj_get_set_ne _ _ _ _ (Ne.symm hk), h]
      · exact h
    · exact h
  · split
    · split
      · split
        · exact h
        · exact h
      · exact h
    · exact h

lemma scan_fold_preserves_var (bs : List Block) (st : DeclState)
    (name : String) (v : JVal)
    (h : st.variableInitialValues.get name = some v) :
    ((bs.foldl scanBlockDecls st).variableInitialValues.get name = some v) := by
  induction bs generalizing st with
  | nil => exact h
  | cons b rest ih =>
    exact ih _ (scan_step_preserves_var st b name v h)

lemma fallback_get_other (st : DeclState) (name : String)
    (h : name ∉ ["len", "i", "j", "k", "result", "separator", "current",
      "next"]) :
    (applyFallbackDefaults st).variableInitialValues.get name
      = st.variableInitialValues.get name := by
  simp only [List.mem_cons, List.not_mem_nil, or_false, not_or] at h
  obtain ⟨h1, h2, h3, h4, h5, h6, h7, h8⟩ := h
  unfold applyFallbackDefaults fallbackVarDefaults
  simp only [List.foldl]
  rw [jobj_get_set_ne _ _ _ _ h8, jobj_get_set_ne _ _ _ _ h7,
    jobj_get_set_ne _ _ _ _ h6, jobj_get_set_ne _ _ _ _ h5,
    jobj_get_set_ne _ _ _ _ h4, jobj_get_set_ne _ _ _ _ h3,
    jobj_get_set_ne _ _ _ _ h2, jobj_get_set_ne _ _ _ _ h1]

lemma fallback_get_mem (st : DeclState) :
    ∀ p ∈ fallbackVarDefaults,
      (applyFallbackDefaults st).variableInitialValues.get p.1 = some p.2 := by
  intro p hp
  unfold applyFallbackDefaults fallbackVarDefaults
  simp only [List.foldl]
  fin_cases hp
  · rw [jobj_get_set_ne _ _ _ _ (by decide), jobj_get_set_ne _ _ _ _ (by decide),
      jobj_get_set_ne _ _ _ _ (by decide), jobj_get_set_ne _ _ _ _ (by decide),
      jobj_get_set_ne _ _ _ _ (by decide), jobj_get_set_ne _ _ _ _ (by decide),
      jobj_get_set_ne _ _ _ _ (by decide), jobj_get_set_self]
  · rw [jobj_get_set_ne _ _ _ _ (by decide), jobj_get_set_ne _ _ _ _ (by decide),
      jobj_get_set_ne _ _ _ _ (by decide), jobj_get_set_ne _ _ _ _ (by decide),
      jobj_get_set_ne _ _ _ _ (by decide), jobj_get_set_ne _ _ _ _ (by decide),
      jobj_get_set_self]
  · rw [jobj_get_set_ne _ _ _ _ (by decide), jobj_get_set_ne _ _ _ _ (by decide),
      jobj_get_set_ne _ _ _ _ (by decide), jobj_get_set_ne _ _ _ _ (by decide),
      jobj_get_set_ne _ _ _ _ (by decide), jobj_get_set_self]
  · rw [jobj_get_set_ne _ _ _ _ (by decide), jobj_get_set_ne _ _ _ _ (by decide),
      jobj_get_set_ne _ _ _ _ (by decide), jobj_get_set_ne _ _ _ _ (by decide),
      jobj_get_set_self]
  · rw [jobj_get_set_ne _ _ _ _ (by decide), jobj_get_set_ne _ _ _ _ (by decide),
      jobj_get_set_ne _ _ _ _ (by decide), jobj_get_set_self]
  · rw [jobj_get_set_ne _ _ _ _ (by decide), jobj_get_set_ne _ _ _ _ (by decide),
      jobj_get_set_self]
  · rw [jobj_get_set_ne _ _ _ _ (by decide), jobj_get_set_self]
  · rw [jobj_get_set_self]

/-- A block set in which the variable `i` is referenced (set) but not
declared: the scenario of claim C2's concrete example, instantiated at one
of the eight hardcoded fallback names. -/
def c2Blocks : Blocks :=
  [("b1",
    { opcode := "data_setvariableto",
      fields := [("VARIABLE", .arr [.str "i", .null])] })]

/-- Counterexample to claim C2 as stated: the variable `i` is explicitly
declared with initial value `7` and referenced elsewhere, yet its collected
declaration carries the fallback value `1`, not `7` — the fixed fallback
injection runs after both other passes as a plain assignment and therefore
has the highest priority for its eight names, not the lowest. -/
theorem c2_counterexample :
    (collectDecls c2Blocks (.arr [.arr [.str "i", .num 7]])
      (.arr [])).variableInitialValues.get "i" = some (.num 1)
    ∧ varDeclsCode (collectDecls c2Blocks (.arr [.arr [.str "i", .num 7]])
        (.arr [])) = "let i = 1;\n\n"
    ∧ JVal.num 1 ≠ JVal.num 7 :=
  ⟨rfl, rfl, by simp⟩

/-- Claim C2 as amended: for every name outside the eight fallback names, an
explicit declaration's value survives the block scan (which never overwrites
a recorded value) and the fallback injection, so the collected declaration
carries the explicit value — in particular an explicitly declared `7` wins
over the inferred default; but for the eight fallback names
(`len i j k result separator current next`) the fallback injection
overwrites whatever the explicit declarations or the scan recorded. -/
theorem c2_amended (blocks : Blocks) (varsJ lists : JVal) (name : String)
    (v : JVal)
    (hexp : (collectExplicitDecls varsJ
      lists).variableInitialValues.get name = some v)
    (hnf : name ∉ ["len", "i", "j", "k", "result", "separator", "current",
      "next"]) :
    (collectDecls blocks varsJ lists).variableInitialValues.get name = some v
    ∧ ∀ p ∈ fallbackVarDefaults,
        (collectDecls blocks varsJ lists).variableInitialValues.get p.1
          = some p.2 := by
  constructor
  · unfold collectDecls
    rw [fallback_get_other _ _ hnf]
    exact scan_fold_preserves_var _ _ _ _ hexp
  · intro p hp
    unfold collectDecls
    exact fallback_get_mem _ p hp

/-- Witness for C2 as amended: the non-fallback name `score`, explicitly
declared `7` and referenced nowhere else, is collected with value `7`, while
the fallback name `i` is forced to `1` on the same input. -/
theorem c2_amended_witness :
    (collectDecls c2Blocks (.arr [.arr [.str "score", .num 7]])
      (.arr [])).variableInitialValues.get "score" = some (.num 7)
    ∧ (collectDecls c2Blocks (.arr [.arr [.str "score", .num 7]])
      (.arr [])).variableInitialValues.get "i" = some (.num 1) :=
  ⟨(c2_amended c2Blocks (.arr [.arr [.str "score", .num 7]]) (.arr [])
      "score" (.num 7) rfl (by decide)).1,
   (c2_amended c2Blocks (.arr [.arr [.str "score", .num 7]]) (.arr [])
      "score" (.num 7) rfl (by decide)).2 ("i", .num 1)
     (List.mem_cons_of_mem _ (List.mem_cons_self _ _))⟩

/-- Whether the graph's block under this identifier carries an event-category
(`event_`-prefixed) opcode. -/
def isEventBlock (blocks : Blocks) (id : String) : Bool :=
  match getBlock blocks id with
  | some b => jsStartsWith b.opcode "event_"
  | none => false

/-- A graph whose first-seen block `b` is an event block referenced as an
input of the later block `a`: `b` is marked as a child and force-included by
the event pass, which appends it after `a`. -/
def c4Blocks : Blocks :=
  [("b", { opcode := "event_whenflagclicked" }),
   ("a",
     { opcode := "looks_show",
       inputs := [("X", .arr [.num 1, .str "b"])] })]

/-- Counterexample to claim C4 as stated: the resolver's output on this graph
is `["a", "b"]`, but the first-seen order of those same identifiers in the
block map is `["b", "a"]` — a force-included event block is appended after
the non-child blocks, so the output sequence is not ordered by first-seen
order. -/
theorem c4_counterexample :
    findTopLevelBlocks c4Blocks = ["a", "b"]
    ∧ (c4Blocks.map (fun p => p.1)).filter
        (fun id => (findTopLevelBlocks c4Blocks).contains id) = ["b", "a"]
    ∧ (["a", "b"] : List String) ≠ ["b", "a"] :=
  ⟨rfl, rfl, by decide⟩

lemma event_pass_fold (blocks : Blocks) (topIds : List String) :
    ∀ (rem acc : List String), rem.Nodup →
      (∀ id ∈ rem, (id ∈ acc ↔ id ∈ topIds)) →
      rem.foldl (fun acc id =>
          match getBlock blocks id with
          | some b =>
            if jsStartsWith b.opcode "event_" && !(acc.contains id) then
              acc ++ [id]
            else acc
          | none => acc) acc
        = acc ++ rem.filter (fun id =>
            isEventBlock blocks id && !(topIds.contains id)) := by
  intro rem
  induction rem with
  | nil => intro acc _ _; simp
  | cons id rem' ih =>
    intro acc hnd hpre
    have hnd' : rem'.Nodup := (List.nodup_cons.mp hnd).2
    have hid : id ∉ rem' := (List.nodup_cons.mp hnd).1
    have hacc_top : id ∈ acc ↔ id ∈ topIds := hpre id (List.mem_cons_self _ _)
    have hstep : (match getBlock blocks id with
        | some b =>
          if jsStartsWith b.opcode "event_" && !(acc.contains id) then
            acc ++ [id]
          else acc
        | none => acc)
        = if isEventBlock blocks id && !(topIds.contains id) then acc ++ [id]
          else acc := by
      cases hg : getBlock blocks id <;>
        simp [isEventBlock, hg, hacc_top]
    rw [List.foldl_cons, hstep]
    by_cases hcond : (isEventBlock blocks id && !(topIds.contains id)) = true
    · rw [if_pos hcond]
      have hpre' : ∀ x ∈ rem', (x ∈ acc ++ [id] ↔ x ∈ topIds) := by
        intro x hx
        have hxid : x ≠ id := fun he => hid (he ▸ hx)
        rw [List.mem_append, List.mem_singleton]
        constructor
        · rintro (hxa | hxe)
          · exact (hpre x (List.mem_cons_of_mem _ hx)).mp hxa
          · exact absurd hxe hxid
        · intro hxt
          exact Or.inl ((hpre x (List.mem_cons_of_mem _ hx)).mpr hxt)
      rw [ih (acc ++ [id]) hnd' hpre']
      simp only [List.filter_cons]
      simp only [List.append_assoc, List.singleton_append]
      rw [if_pos (by simpa using hcond)]
    · rw [if_neg hcond]
      have hpre' : ∀ x ∈ rem', (x ∈ acc ↔ x ∈ topIds) := fun x hx =>
        hpre x (List.mem_cons_of_mem _ hx)
      have hcf : (isEventBlock blocks id && !(topIds.contains id)) = false := by
        simpa using hcond
      rw [ih acc hnd' hpre']
      simp only [List.filter_cons]
      rw [if_neg (by simpa using hcond)]

/-- Claim C4 as amended: under the (always true for JavaScript objects)
assumption that block identifiers are distinct, the resolver's output is the
non-child identifiers in first-seen block-map order, followed by the
force-included event blocks — the child identifiers with event-category
opcodes — appended after them (again in first-seen order among themselves);
in particular membership is exactly the claimed set: the identifiers that
are never referenced as an input's second element or as a `next` value,
united with the event-opcode blocks. -/
theorem c4_amended (blocks : Blocks)
    (hnd : (blocks.map (fun p => p.1)).Nodup) :
    findTopLevelBlocks blocks
      = (blocks.map (fun p => p.1)).filter
          (fun id => !((childBlocksOf blocks).contains id))
        ++ (blocks.map (fun p => p.1)).filter
          (fun id => (childBlocksOf blocks).contains id
            && isEventBlock blocks id)
    ∧ ∀ id, (id ∈ findTopLevelBlocks blocks
        ↔ (id ∈ blocks.map (fun p => p.1)
            ∧ (id ∉ childBlocksOf blocks ∨ isEventBlock blocks id = true))) := by
  have h0 : findTopLevelBlocks blocks
      = ((blocks.map (fun p => p.1)).filter
          (fun id => !((childBlocksOf blocks).contains id)))
        ++ (blocks.map (fun p => p.1)).filter (fun id =>
            isEventBlock blocks id
              && !((((blocks.map (fun p => p.1)).filter
                (fun x => !((childBlocksOf blocks).contains x)))).contains id)) := by
    unfold findTopLevelBlocks
    exact event_pass_fold blocks _ _ _ hnd (fun _ _ => Iff.rfl)
  have hfc : (blocks.map (fun p => p.1)).filter (fun id =>
        isEventBlock blocks id
          && !((((blocks.map (fun p => p.1)).filter
            (fun x => !((childBlocksOf blocks).contains x)))).contains id))
      = (blocks.map (fun p => p.1)).filter
          (fun id => (childBlocksOf blocks).contains id
            && isEventBlock blocks id) := by
    apply List.filter_congr
    intro id hid
    by_cases hc : id ∈ childBlocksOf blocks
    · have hcc : (childBlocksOf blocks).contains id = true :=
        List.elem_iff.mpr hc
      have htop : (((blocks.map (fun p => p.1)).filter
          (fun x => !((childBlocksOf blocks).contains x)))).contains id
            = false := by
        by_contra hcon
        have hmem : id ∈ (blocks.map (fun p => p.1)).filter
            (fun x => !((childBlocksOf blocks).contains x)) := by
          apply List.elem_iff.mp
          cases hcc2 : (((blocks.map (fun p => p.1)).filter
              (fun x => !((childBlocksOf blocks).contains x)))).contains id
          · exact absurd hcc2 hcon
          · exact hcc2
        have := (List.mem_filter.mp hmem).2
        rw [hcc] at this
        simp at this
      rw [hcc, htop]
      simp
    · have hcc : (childBlocksOf blocks).contains id = false := by
        cases hcc2 : (childBlocksOf blocks).contains id
        · rfl
        · exact absurd (List.elem_iff.mp hcc2) hc
      have htop : (((blocks.map (fun p => p.1)).filter
          (fun x => !((childBlocksOf blocks).contains x)))).contains id
            = true := by
        apply List.elem_iff.mpr
        apply List.mem_filter.mpr
        exact ⟨hid, by rw [hcc]; rfl⟩
      rw [hcc, htop]
      simp
  constructor
  · rw [h0, hfc]
  · intro id
    rw [h0, hfc]
    simp only [List.mem_append, List.mem_filter, Bool.and_eq_true,
      Bool.not_eq_true']
    constructor
    · rintro (⟨hm, hnc⟩ | ⟨hm, hcb, hev⟩)
      · refine ⟨hm, Or.inl ?_⟩
        intro hmem
        have hct : (childBlocksOf blocks).contains id = true :=
          List.elem_iff.mpr hmem
        rw [hct] at hnc
        cases hnc
      · exact ⟨hm, Or.inr hev⟩
    · rintro ⟨hm, hnc | hev⟩
      · refine Or.inl ⟨hm, ?_⟩
        cases hcc2 : (childBlocksOf blocks).contains id
        · rfl
        · exact absurd (List.elem_iff.mp hcc2) hnc
      · by_cases hc : id ∈ childBlocksOf blocks
        · exact Or.inr ⟨hm, List.elem_iff.mpr hc, hev⟩
        · refine Or.inl ⟨hm, ?_⟩
          cases hcc2 : (childBlocksOf blocks).contains id
          · rfl
          · exact absurd (List.elem_iff.mp hcc2) hc

/-- Witness for C4 as amended at the concrete two-block graph: the non-child
block `a` comes first, the force-included event block `b` is appended. -/
theorem c4_amended_witness : findTopLevelBlocks c4Blocks = ["a", "b"] := by
  have h := (c4_amended c4Blocks (by decide)).1
  exact h.trans (by decide)
